import Mathlib

/-!
Verification of the LiquiVerde multi-criteria shopping optimization platform.

The file embeds, shallowly, the parts of the code base that the verified
properties talk about:

* the scanner page helpers and the shopping-list page state transitions,
  translated from `frontend/src/pages/Scanner.jsx` and
  `frontend/src/pages/ShoppingList.jsx`;
* the four algorithmic core components (sustainability scorer, multi-objective
  knapsack optimizer, substitute finder, route optimizer).  Their Python
  sources (`backend/app/algorithms/*.py`) are not part of the snapshot, so the
  corresponding definitions are modelled from the specification and the
  pseudocode of `ALGORITHMS.md`, as indicated in their doc comments.

Scores, prices and distances are represented as rationals; budgets and
discretized prices as naturals (integer minor-currency units, as the spec
requires for the DP); fallible entry points return `Except`.
-/

namespace LiquiVerde

/-! ### Scanner page (frontend/src/pages/Scanner.jsx) -/

/-- Translated from `getSustainabilityColor` in `Scanner.jsx`. -/
def getSustainabilityColor (score : ℚ) : String :=
  if 70 ≤ score then "text-green-600 bg-green-100"
  else if 50 ≤ score then "text-yellow-600 bg-yellow-100"
  else "text-red-600 bg-red-100"

/-- Translated from `getSustainabilityLabel` in `Scanner.jsx`. -/
def getSustainabilityLabel (score : ℚ) : String :=
  if 70 ≤ score then "Excelente"
  else if 50 ≤ score then "Bueno"
  else "Mejorable"

/-! ### Shopping-list page state (frontend/src/pages/ShoppingList.jsx) -/

/-- A catalog product as rendered by the shopping-list page. -/
structure CatalogProduct where
  id : Nat
  price : ℚ
deriving Repr, DecidableEq

/-- An entry of the `selectedProducts` state: the catalog product enriched
with `quantity` and `priority` fields, as built by `addProduct`. -/
structure SelEntry where
  id : Nat
  price : ℚ
  quantity : Int
  priority : Nat
deriving Repr, DecidableEq

/-- Translated from `addProduct` in `ShoppingList.jsx`: insert the product at
the end with quantity 1 and priority 3, unless an entry with the same id is
already present. -/
def addProduct (l : List SelEntry) (p : CatalogProduct) : List SelEntry :=
  if l.any (fun q => q.id == p.id) then l
  else l ++ [⟨p.id, p.price, 1, 3⟩]

/-- Translated from `removeProduct` in `ShoppingList.jsx`. -/
def removeProduct (l : List SelEntry) (pid : Nat) : List SelEntry :=
  l.filter (fun q => q.id != pid)

/-- Translated from `updateQuantity` in `ShoppingList.jsx`: map over the
entries, replacing the quantity (clamped below by 1) of the entry whose id
matches. -/
def updateQuantity (l : List SelEntry) (pid : Nat) (q : Int) : List SelEntry :=
  l.map (fun p => if p.id == pid then { p with quantity := max 1 q } else p)

/-- One user interaction with the shopping-list page state. -/
inductive ListOp where
  | add (p : CatalogProduct)
  | remove (pid : Nat)
  | setQty (pid : Nat) (q : Int)
deriving Repr

/-- Apply one interaction to the `selectedProducts` state. -/
def applyOp (l : List SelEntry) : ListOp → List SelEntry
  | .add p => addProduct l p
  | .remove pid => removeProduct l pid
  | .setQty pid q => updateQuantity l pid q

/-- Run a sequence of interactions from the initial (empty) state. -/
def runOps (ops : List ListOp) : List SelEntry :=
  ops.foldl applyOp []

/-! ### Multi-objective knapsack optimizer -/

/-- Error taxonomy of the algorithmic core (spec §7). -/
inductive AlgError where
  | invalidInput
deriving Repr, DecidableEq

/-- Modelled from the spec: one knapsack item as seen by the DP of
`backend/app/algorithms/knapsack.py` (missing from the snapshot): unit price
in integer minor-currency units, per-unit multi-objective value, and the
caller-specified desired quantity. -/
structure KItem where
  price : Nat
  value : ℚ
  desired : Nat
deriving Repr, DecidableEq

/-- Total cost (in minor-currency units) of choosing quantities `qs` for the
items, position by position. -/
def selCost : List KItem → List Nat → Nat
  | it :: its, q :: qs => it.price * q + selCost its qs
  | _, _ => 0

/-- Total objective value of choosing quantities `qs` for the items. -/
def totalValue : List KItem → List Nat → ℚ
  | it :: its, q :: qs => it.value * q + totalValue its qs
  | _, _ => 0

/-- Modelled from the spec: the bounded-quantity knapsack optimization of
`knapsack.py` (missing from the snapshot).  The DP recurrence of spec §4.2 /
`ALGORITHMS.md` §1 chooses, per product, one quantity `q ∈ [0, desired]`
with `cost(i, q) ≤ w`, maximizing accumulated value; this definition computes
the same optimum together with the reconstructed quantities, by structural
recursion on the product list. -/
def bestSel : List KItem → Nat → ℚ × List Nat
  | [], _ => (0, [])
  | it :: rest, b =>
    (List.range it.desired).foldl
      (fun acc k =>
        if it.price * (k + 1) ≤ b then
          if acc.1 < (bestSel rest (b - it.price * (k + 1))).1 + it.value * (k + 1) then
            ((bestSel rest (b - it.price * (k + 1))).1 + it.value * (k + 1),
              (k + 1) :: (bestSel rest (b - it.price * (k + 1))).2)
          else acc
        else acc)
      ((bestSel rest b).1, 0 :: (bestSel rest b).2)

/-- The step function of the quantity loop of `bestSel`, named for the
proofs: try quantity `k + 1` of item `it` within budget `b`, keeping the
better of the accumulator and the candidate. -/
def knapStep (it : KItem) (rest : List KItem) (b : Nat) (acc : ℚ × List Nat) (k : Nat) :
    ℚ × List Nat :=
  if it.price * (k + 1) ≤ b then
    if acc.1 < (bestSel rest (b - it.price * (k + 1))).1 + it.value * (k + 1) then
      ((bestSel rest (b - it.price * (k + 1))).1 + it.value * (k + 1),
        (k + 1) :: (bestSel rest (b - it.price * (k + 1))).2)
    else acc
  else acc

/-- Modelled from the spec: a product as consumed by the knapsack optimizer,
with the three normalized objective signals in place of a raw product
record. -/
structure KProduct where
  price : Nat
  sustainabilityNorm : ℚ
  savingsNorm : ℚ
  priorityNorm : ℚ
  desired : Nat
deriving Repr, DecidableEq

/-- Modelled from the spec: per-unit value
`sustainability_norm×w1 + savings_norm×w2 + priority_norm×w3` (spec §4.2). -/
def unitValue (w1 w2 w3 : ℚ) (p : KProduct) : ℚ :=
  p.sustainabilityNorm * w1 + p.savingsNorm * w2 + p.priorityNorm * w3

/-- View a knapsack product as a DP item under the given objective weights. -/
def toItem (w1 w2 w3 : ℚ) (p : KProduct) : KItem :=
  ⟨p.price, unitValue w1 w2 w3 p, p.desired⟩

/-- Decidable equality for `Except` results, used to evaluate the entry
points on concrete inputs. -/
instance {ε α : Type} [DecidableEq ε] [DecidableEq α] : DecidableEq (Except ε α) := fun a b =>
  match a, b with
  | .ok x, .ok y => if h : x = y then isTrue (by rw [h]) else isFalse (by simp [h])
  | .error x, .error y => if h : x = y then isTrue (by rw [h]) else isFalse (by simp [h])
  | .ok _, .error _ => isFalse (by simp)
  | .error _, .ok _ => isFalse (by simp)

/-- Modelled from the spec: the `optimize` entry point of the knapsack
optimizer (missing from the snapshot).  It signals `InvalidInput` when any
objective weight is negative or the budget is negative (spec §4.2 Failure),
and otherwise runs the DP, returning the achieved value and the chosen
quantities. -/
def optimize (w1 w2 w3 : ℚ) (budget : Int) (prods : List KProduct) :
    Except AlgError (ℚ × List Nat) :=
  if w1 < 0 ∨ w2 < 0 ∨ w3 < 0 ∨ budget < 0 then .error .invalidInput
  else .ok (bestSel (prods.map (toItem w1 w2 w3)) budget.toNat)

/-- Modelled from the spec: essential-items pre-pass of
`optimize_with_essentials` (spec §4.2, `ALGORITHMS.md` §1): cost of the
essential part of the basket, each essential given as (unit price, desired
quantity) in integer minor-currency units. -/
def essentialCost (ess : List (Nat × Nat)) : Nat :=
  (ess.map (fun e => e.1 * e.2)).sum

/-- Modelled from the spec: when the essential cost exceeds the budget, every
essential quantity is scaled down by the uniform factor
`budget / essential_cost`, floored to integer units; otherwise the quantities
are kept. -/
def scaleEssentials (budget : Nat) (ess : List (Nat × Nat)) : List Nat :=
  if budget < essentialCost ess then
    ess.map (fun e => e.2 * budget / essentialCost ess)
  else
    ess.map (fun e => e.2)

/-! ### Sustainability scorer -/

/-- Origin classification of a product (spec §3, transport table of
ALGORITHMS.md §2). -/
inductive Origin where
  | localOrigin
  | national
  | southAmerica
  | northAmerica
  | europe
  | asia
deriving Repr, DecidableEq

/-- Optional nutritional attributes of a product (spec §3). -/
structure NutritionalInfo where
  energyKcal : Option ℚ
  proteins : Option ℚ
  carbs : Option ℚ
  fats : Option ℚ
  fiber : Option ℚ
  sodium : Option ℚ
deriving Repr, DecidableEq

/-- A product record as consumed by the scorer (spec §3). -/
structure Product where
  category : String
  price : ℚ
  weightKg : ℚ
  origin : Origin
  labels : List String
  nutrition : NutritionalInfo
deriving Repr, DecidableEq

/-- Clamp a score to the `[0, 100]` range (spec §4.1). -/
def clampScore (x : ℚ) : ℚ := max 0 (min 100 x)

/-- Modelled from the spec: price-ratio adjustment of the economic axis
(spec §4.1, `sustainability_scoring.py` missing from the snapshot); a zero
category average applies no adjustment, guarding the division. -/
def priceRatioAdj (price catAvg : ℚ) : ℚ :=
  if catAvg = 0 then 0
  else
    if price / catAvg < 0.8 then 30
    else if price / catAvg < 1 then 20
    else if price / catAvg < 1.2 then 10
    else if price / catAvg < 1.5 then -10
    else -20

/-- High protein (>10g) or high fiber (>5g), for the economic bonus. -/
def highProteinOrFiber (n : NutritionalInfo) : Bool :=
  (match n.proteins with | some p => decide (10 < p) | none => false) ||
  (match n.fiber with | some f => decide (5 < f) | none => false)

/-- Modelled from the spec: +10 economic points for high protein or fiber
(spec §4.1). -/
def nutritionBonus (n : NutritionalInfo) : ℚ :=
  if highProteinOrFiber n then 10 else 0

/-- Modelled from the spec: bulk-purchase bonus, proportional to the
caller-supplied purchased quantity and capped at +10; the spec fixes only
"proportional to purchased quantity, capped". -/
def bulkBonus (qty : Nat) : ℚ := min (qty : ℚ) 10

/-- Modelled from the spec: economic axis (spec §4.1), base 50, clamped. -/
def economicScore (p : Product) (catAvg : ℚ) (qty : Nat) : ℚ :=
  clampScore (50 + priceRatioAdj p.price catAvg + nutritionBonus p.nutrition + bulkBonus qty)

/-- Modelled from the spec: per-category emission factor in kg CO2 per kg
(table of ALGORITHMS.md §2); categories outside the table contribute 0. -/
def carbonFactor (category : String) : ℚ :=
  if category = "meat" then 27
  else if category = "poultry" then 6.9
  else if category = "dairy" then 13.5
  else if category = "fish" then 6
  else if category = "vegetables" then 2
  else if category = "fruits" then 1.1
  else if category = "grains" then 2.5
  else if category = "legumes" then 0.9
  else 0

/-- Modelled from the spec: transport distance per origin classification
(spec §4.1, ALGORITHMS.md §2). -/
def originDistanceKm : Origin → ℚ
  | .localOrigin => 50
  | .national => 500
  | .southAmerica => 2000
  | .northAmerica => 5000
  | .europe => 10000
  | .asia => 12000

/-- Modelled from the spec: base carbon footprint, category factor times
weight plus transport carbon `(distance_km / 1000) × 0.1 × weight_kg`
(spec §4.1). -/
def baseCarbon (p : Product) : ℚ :=
  carbonFactor p.category * p.weightKg +
    originDistanceKm p.origin / 1000 * 0.1 * p.weightKg

/-- Modelled from the spec: footprint adjustments, organic −10% and local
origin −30% (spec §4.1). -/
def adjustedCarbon (p : Product) : ℚ :=
  baseCarbon p * (if p.labels.contains "organic" then 0.9 else 1) *
    (if p.origin = .localOrigin then 0.7 else 1)

/-- Modelled from the spec: footprint bucket score delta (spec §4.1). -/
def carbonDelta (c : ℚ) : ℚ :=
  if c < 1 then 30 else if c < 3 then 15 else if c < 5 then 5
  else if c < 10 then -10 else -25

/-- Modelled from the spec: environmental axis (spec §4.1), base 50, label
bonuses organic +15, eco-friendly +10, local origin +20, plus the bucket
delta of the adjusted footprint, clamped. -/
def environmentalScore (p : Product) : ℚ :=
  clampScore (50 + (if p.labels.contains "organic" then 15 else 0) +
    (if p.labels.contains "eco-friendly" then 10 else 0) +
    (if p.origin = .localOrigin then 20 else 0) +
    carbonDelta (adjustedCarbon p))

/-- Modelled from the spec: social axis (spec §4.1), base 50, additive
non-exclusive bonuses, clamped. -/
def socialScore (p : Product) : ℚ :=
  clampScore (50 + (if p.labels.contains "fair-trade" then 25 else 0) +
    (if p.labels.contains "b-corp" then 20 else 0) +
    (if p.origin = .localOrigin then 20 else 0) +
    (if p.origin = .southAmerica then 10 else 0) +
    (if p.labels.contains "small-producer" then 15 else 0) +
    (if p.labels.contains "cooperative" then 15 else 0))

/-- The sustainability score record returned by the scorer (spec §3). -/
structure SustainabilityScore where
  economic : ℚ
  environmental : ℚ
  social : ℚ
  overall : ℚ
  carbonKg : ℚ
deriving Repr, DecidableEq

/-- Modelled from the spec: assemble the three clamped axes, the overall
weighted combination `economic×0.33 + environmental×0.34 + social×0.33`
and the carbon footprint (spec §4.1). -/
def mkScore (p : Product) (catAvg : ℚ) (qty : Nat) : SustainabilityScore :=
  { economic := economicScore p catAvg qty
    environmental := environmentalScore p
    social := socialScore p
    overall := economicScore p catAvg qty * 0.33 + environmentalScore p * 0.34 +
      socialScore p * 0.33
    carbonKg := adjustedCarbon p }

/-- Modelled from the spec: the scorer entry point
`score(product, categoryAverage)` with the caller-supplied purchased
quantity; signals `InvalidInput` when price, weight or category average is
negative (spec §4.1 Failure). -/
def scoreProduct (p : Product) (catAvg : ℚ) (qty : Nat) :
    Except AlgError SustainabilityScore :=
  if p.price < 0 ∨ p.weightKg < 0 ∨ catAvg < 0 then .error .invalidInput
  else .ok (mkScore p catAvg qty)

/-! ### Substitute finder -/

/-- Modelled from the spec: a scored product as consumed by the substitute
finder (`product_substitution.py` missing from the snapshot); the `overall`
field carries the Scorer output. -/
structure SProduct where
  price : ℚ
  overall : ℚ
  category : String
  energyKcal : Option ℚ
  proteins : Option ℚ
  carbs : Option ℚ
  fats : Option ℚ
deriving Repr, DecidableEq

/-- Modelled from the spec: related-category table (ALGORITHMS.md §3). -/
def relatedCategories : String → List String
  | "meat" => ["poultry", "fish"]
  | "dairy" => ["cheese", "yogurt", "milk"]
  | "vegetables" => ["fruits", "legumes"]
  | _ => []

/-- Modelled from the spec: category similarity component: 100 for the same
category, 70 when related in either direction, 30 otherwise (spec §4.3). -/
def categoryComponent (a b : String) : ℚ :=
  if a = b then 100
  else if (relatedCategories a).contains b || (relatedCategories b).contains a then 70
  else 30

/-- Modelled from the spec: similarity of one pair of nutrient values,
`(1 − |v1 − v2| / max(v1, v2)) × 100` (spec §4.3). -/
def nutrientSimilarity (v1 v2 : ℚ) : ℚ := (1 - |v1 - v2| / max v1 v2) * 100

/-- Modelled from the spec: nutritional similarity component: average of the
pair similarities over the nutrient fields present on both sides, 0 when no
field is shared (spec §4.3). -/
def nutritionComponent (a b : SProduct) : ℚ :=
  let sims := ([(a.energyKcal, b.energyKcal), (a.proteins, b.proteins),
    (a.carbs, b.carbs), (a.fats, b.fats)]).filterMap (fun pr =>
      match pr with
      | (some v1, some v2) => some (nutrientSimilarity v1 v2)
      | _ => none)
  if sims.length = 0 then 0 else sims.sum / sims.length

/-- Modelled from the spec: the four-component substitution score
`improvement×0.35 + savings×0.30 + category×0.20 + nutrition×0.15`, the
first two clamped to `[0, 100]` (spec §4.3). -/
def substitutionScore (orig cand : SProduct) : ℚ :=
  clampScore (cand.overall - orig.overall) * 0.35 +
  clampScore ((orig.price - cand.price) / orig.price * 100 * 5) * 0.30 +
  categoryComponent orig.category cand.category * 0.20 +
  nutritionComponent orig cand * 0.15

/-- A substitution result: the candidate and its total substitution score. -/
structure SubstitutionResult where
  cand : SProduct
  score : ℚ
deriving Repr, DecidableEq

/-- Result ordering of the substitute finder: higher total score first, ties
broken by lower candidate price (spec §4.3). -/
def subBefore (a b : SubstitutionResult) : Prop :=
  b.score < a.score ∨ (a.score = b.score ∧ a.cand.price ≤ b.cand.price)

instance : DecidableRel subBefore := fun a b => by
  unfold subBefore
  infer_instance

instance : IsTotal SubstitutionResult subBefore where
  total a b := by
    unfold subBefore
    rcases lt_trichotomy a.score b.score with h | h | h
    · exact Or.inr (Or.inl h)
    · rcases le_total a.cand.price b.cand.price with hp | hp
      · exact Or.inl (Or.inr ⟨h, hp⟩)
      · exact Or.inr (Or.inr ⟨h.symm, hp⟩)
    · exact Or.inl (Or.inl h)

instance : IsTrans SubstitutionResult subBefore where
  trans a b c hab hbc := by
    unfold subBefore at hab hbc ⊢
    rcases hab with h1 | h1 <;> rcases hbc with h2 | h2
    · exact Or.inl (lt_trans h2 h1)
    · exact Or.inl (by rw [← h2.1]; exact h1)
    · exact Or.inl (by rw [h1.1]; exact h2)
    · exact Or.inr ⟨h1.1.trans h2.1, le_trans h1.2 h2.2⟩

/-- Modelled from the spec: `findSubstitutes` (spec §4.3): keep only the
candidates within the price cap and reaching the minimum improvement, score
the survivors, and sort by descending score with the price tie-break. -/
def findSubstitutes (orig : SProduct) (pool : List SProduct)
    (maxPriceIncreasePct minImprovement : ℚ) : List SubstitutionResult :=
  ((pool.filter (fun c =>
      decide (c.price ≤ orig.price * (1 + maxPriceIncreasePct)) &&
      decide (minImprovement ≤ c.overall - orig.overall))).map
    (fun c => ⟨c, substitutionScore orig c⟩)).insertionSort subBefore

/-! ### Route optimizer -/

/-- Modelled from the spec: the nearest candidate to the current position
among `x :: xs` under distance `f`, ties broken by the lowest store index
(spec §4.4 Step 1, `route_optimization.py` missing from the snapshot). -/
def chooseNearest (f : Nat → ℚ) (x : Nat) (xs : List Nat) : Nat :=
  xs.foldl (fun best y => if f y < f best ∨ (f y = f best ∧ y < best) then y else best) x

/-- Modelled from the spec: nearest-neighbor construction (spec §4.4
Step 1): repeatedly append the nearest unvisited store.  The current
position is carried as its distance function `f` (initially the distance
from the start location, afterwards the distance from the last chosen
store); the fuel starts as the number of stores. -/
def nnAux (d : Nat → Nat → ℚ) : Nat → (Nat → ℚ) → List Nat → List Nat
  | 0, _, _ => []
  | fuel + 1, f, unvisited =>
    match unvisited with
    | [] => []
    | x :: xs =>
      let m := chooseNearest f x xs
      m :: nnAux d fuel (d m) ((x :: xs).erase m)

/-- Modelled from the spec: the nearest-neighbor route over the store
indices; `dStart` is the distance from the start location to each store,
`d` the store-to-store distance. -/
def nearestNeighbor (dStart : Nat → ℚ) (d : Nat → Nat → ℚ) (stores : List Nat) : List Nat :=
  nnAux d stores.length dStart stores

/-- Distance along consecutive stores starting from `cur`. -/
def pathDist (d : Nat → Nat → ℚ) : Nat → List Nat → ℚ
  | _, [] => 0
  | cur, x :: xs => d cur x + pathDist d x xs

/-- Modelled from the spec: total closed-route distance: start to the first
store, the consecutive legs, and the last store back to the start
(spec §4.4). -/
def routeDist (dStart : Nat → ℚ) (d : Nat → Nat → ℚ) : List Nat → ℚ
  | [] => 0
  | x :: xs => dStart x + pathDist d x xs + dStart (xs.getLastD x)

/-- Modelled from the spec: reverse the contiguous segment `route[i..j]`
(Python `route[:i] + route[i:j+1][::-1] + route[j+1:]`,
ALGORITHMS.md §4). -/
def reverseSegment (route : List Nat) (i j : Nat) : List Nat :=
  route.take i ++ ((route.drop i).take (j + 1 - i)).reverse ++ route.drop (j + 1)

/-- Modelled from the spec: the `(i, j)` index pairs attempted during one
2-opt pass, `1 ≤ i < j ≤ n − 1` (ALGORITHMS.md §4). -/
def segPairs (n : Nat) : List (Nat × Nat) :=
  ((List.range n).flatMap (fun i => (List.range n).map (fun j => (i, j)))).filter
    (fun pr => decide (1 ≤ pr.1) && decide (pr.1 < pr.2))

/-- Modelled from the spec: one full 2-opt pass: try every segment reversal
of the current route and keep the best-improving candidate (spec §4.4
Step 2). -/
def twoOptPass (dStart : Nat → ℚ) (d : Nat → Nat → ℚ) (route : List Nat) : List Nat :=
  (segPairs route.length).foldl
    (fun best pr =>
      if routeDist dStart d (reverseSegment route pr.1 pr.2) <
          routeDist dStart d best then
        reverseSegment route pr.1 pr.2
      else best)
    route

/-- Modelled from the spec: bounded 2-opt refinement (spec §4.4 Step 2):
repeat passes while they strictly improve the distance, up to the iteration
cap. -/
def twoOpt (dStart : Nat → ℚ) (d : Nat → Nat → ℚ) : Nat → List Nat → List Nat
  | 0, route => route
  | fuel + 1, route =>
    if routeDist dStart d (twoOptPass dStart d route) < routeDist dStart d route then
      twoOpt dStart d fuel (twoOptPass dStart d route)
    else route

/-- Modelled from the spec: `optimizeRoute` (spec §4.4): nearest-neighbor
construction followed by 2-opt refinement with the documented cap of 100
passes. -/
def optimizeRoute (dStart : Nat → ℚ) (d : Nat → Nat → ℚ) (stores : List Nat) : List Nat :=
  twoOpt dStart d 100 (nearestNeighbor dStart d stores)

end LiquiVerde

namespace LiquiVerde

/-! ### Theorems about the shopping-list page state -/

theorem ids_addProduct_nodup {l : List SelEntry} {p : CatalogProduct}
    (h : (l.map SelEntry.id).Nodup) : ((addProduct l p).map SelEntry.id).Nodup := by
  unfold addProduct
  by_cases hmem : l.any (fun q => q.id == p.id)
  · simpa [hmem] using h
  · have hnot : ∀ q ∈ l, q.id ≠ p.id := by
      intro q hq
      intro hEq
      exact hmem (List.any_eq_true.mpr ⟨q, hq, by simp [hEq]⟩)
    simp only [hmem, if_neg, Bool.false_eq_true, not_false_eq_true, ite_false, List.map_append,
      List.map_cons, List.map_nil]
    rw [List.nodup_append]
    refine ⟨h, List.nodup_singleton _, ?_⟩
    intro a ha hb
    simp only [List.mem_singleton] at hb
    obtain ⟨q, hq, rfl⟩ := List.mem_map.mp ha
    exact hnot q hq (hb ▸ rfl)

theorem ids_removeProduct_nodup {l : List SelEntry} {pid : Nat}
    (h : (l.map SelEntry.id).Nodup) : ((removeProduct l pid).map SelEntry.id).Nodup :=
  h.sublist (List.Sublist.map _ (List.filter_sublist l))

theorem ids_updateQuantity_eq (l : List SelEntry) (pid : Nat) (q : Int) :
    (updateQuantity l pid q).map SelEntry.id = l.map SelEntry.id := by
  unfold updateQuantity
  rw [List.map_map]
  refine List.map_congr_left ?_
  intro p _
  by_cases hp : p.id = pid <;> simp [hp]

theorem ids_applyOp_nodup {l : List SelEntry} (op : ListOp)
    (h : (l.map SelEntry.id).Nodup) : ((applyOp l op).map SelEntry.id).Nodup := by
  cases op with
  | add p => exact ids_addProduct_nodup h
  | remove pid => exact ids_removeProduct_nodup h
  | setQty pid q => simpa [applyOp, ids_updateQuantity_eq] using h

theorem foldl_applyOp_nodup :
    ∀ (ops : List ListOp) (l : List SelEntry), (l.map SelEntry.id).Nodup →
      ((ops.foldl applyOp l).map SelEntry.id).Nodup := by
  intro ops
  induction ops with
  | nil => intro l h; simpa using h
  | cons op rest ih =>
      intro l h
      exact ih (applyOp l op) (ids_applyOp_nodup op h)

/-- C9: in the shopping-list page state, the selected-products list never
contains two entries with the same product id: starting from the empty list,
every sequence of `addProduct`, `removeProduct` and `updateQuantity`
interactions preserves the uniqueness of the ids. -/
theorem shoppingList_ids_nodup (ops : List ListOp) :
    ((runOps ops).map SelEntry.id).Nodup :=
  foldl_applyOp_nodup ops [] (by simp)

/-! ### Theorems about the scanner page -/

/-- C10: the scanner page classifies every numeric sustainability score into
exactly one of three labels, with the same thresholds for the label and for
the color style: `Excelente`/green iff score ≥ 70, `Bueno`/yellow iff
50 ≤ score < 70, `Mejorable`/red iff score < 50; hence
`getSustainabilityLabel` and `getSustainabilityColor` always agree on the
bucket. -/
theorem scanner_label_color_buckets (s : ℚ) :
    (getSustainabilityLabel s = "Excelente" ↔ 70 ≤ s) ∧
    (getSustainabilityLabel s = "Bueno" ↔ 50 ≤ s ∧ s < 70) ∧
    (getSustainabilityLabel s = "Mejorable" ↔ s < 50) ∧
    (getSustainabilityColor s = "text-green-600 bg-green-100" ↔ 70 ≤ s) ∧
    (getSustainabilityColor s = "text-yellow-600 bg-yellow-100" ↔ 50 ≤ s ∧ s < 70) ∧
    (getSustainabilityColor s = "text-red-600 bg-red-100" ↔ s < 50) := by
  by_cases h70 : 70 ≤ s
  · have e1 : getSustainabilityLabel s = "Excelente" := by
      simp [getSustainabilityLabel, h70]
    have e2 : getSustainabilityColor s = "text-green-600 bg-green-100" := by
      simp [getSustainabilityColor, h70]
    refine ⟨iff_of_true e1 h70, ?_, ?_, iff_of_true e2 h70, ?_, ?_⟩
    · exact iff_of_false (by rw [e1]; decide) (fun h => absurd h70 (not_le.mpr h.2))
    · exact iff_of_false (by rw [e1]; decide)
        (fun h => absurd h70 (not_le.mpr (lt_of_lt_of_le h (by norm_num))))
    · exact iff_of_false (by rw [e2]; decide) (fun h => absurd h70 (not_le.mpr h.2))
    · exact iff_of_false (by rw [e2]; decide)
        (fun h => absurd h70 (not_le.mpr (lt_of_lt_of_le h (by norm_num))))
  · by_cases h50 : 50 ≤ s
    · have hb : 50 ≤ s ∧ s < 70 := ⟨h50, not_le.mp h70⟩
      have e1 : getSustainabilityLabel s = "Bueno" := by
        simp [getSustainabilityLabel, h70, h50]
      have e2 : getSustainabilityColor s = "text-yellow-600 bg-yellow-100" := by
        simp [getSustainabilityColor, h70, h50]
      refine ⟨iff_of_false (by rw [e1]; decide) h70, iff_of_true e1 hb,
        iff_of_false (by rw [e1]; decide) (fun h => absurd h50 (not_le.mpr h)),
        iff_of_false (by rw [e2]; decide) h70, iff_of_true e2 hb,
        iff_of_false (by rw [e2]; decide) (fun h => absurd h50 (not_le.mpr h))⟩
    · have hlt : s < 50 := not_le.mp h50
      have e1 : getSustainabilityLabel s = "Mejorable" := by
        simp [getSustainabilityLabel, h70, h50]
      have e2 : getSustainabilityColor s = "text-red-600 bg-red-100" := by
        simp [getSustainabilityColor, h70, h50]
      refine ⟨iff_of_false (by rw [e1]; decide) h70,
        iff_of_false (by rw [e1]; decide) (fun h => absurd h.1 h50),
        iff_of_true e1 hlt,
        iff_of_false (by rw [e2]; decide) h70,
        iff_of_false (by rw [e2]; decide) (fun h => absurd h.1 h50),
        iff_of_true e2 hlt⟩

/-! ### Generic fold lemmas -/

theorem foldl_invariant {α β : Type*} (P : α → Prop) (f : α → β → α) (l : List β) :
    ∀ init : α, P init → (∀ a b, b ∈ l → P a → P (f a b)) → P (l.foldl f init) := by
  induction l with
  | nil => intro init h0 _; exact h0
  | cons b t ih =>
      intro init h0 hstep
      rw [List.foldl_cons]
      exact ih (f init b) (hstep init b (List.mem_cons_self b t) h0)
        (fun a c hc ha => hstep a c (List.mem_cons_of_mem _ hc) ha)

theorem fst_le_foldl {α β : Type*} (g : α → ℚ) (f : α → β → α)
    (hmono : ∀ a b, g a ≤ g (f a b)) (l : List β) :
    ∀ init : α, g init ≤ g (l.foldl f init) := by
  induction l with
  | nil => intro init; exact le_refl _
  | cons b t ih =>
      intro init
      rw [List.foldl_cons]
      exact le_trans (hmono init b) (ih (f init b))

theorem le_foldl_of_mem {α β : Type*} (g : α → ℚ) (f : α → β → α) (c : ℚ)
    (hmono : ∀ a b, g a ≤ g (f a b)) (l : List β) (x : β) :
    x ∈ l → (∀ a, c ≤ g (f a x)) → ∀ init : α, c ≤ g (l.foldl f init) := by
  induction l with
  | nil => intro h; exact absurd h (List.not_mem_nil x)
  | cons b t ih =>
      intro hx hstep init
      rw [List.foldl_cons]
      rcases List.mem_cons.mp hx with rfl | hx'
      · exact le_trans (hstep init) (fst_le_foldl g f hmono t (f init x))
      · exact ih hx' hstep (f init b)

theorem foldl_fixed {α β : Type*} (f : α → β → α) (l : List β) :
    (∀ a x, x ∈ l → f a x = a) → ∀ init : α, l.foldl f init = init := by
  induction l with
  | nil => intro _ init; rfl
  | cons b t ih =>
      intro h init
      rw [List.foldl_cons, h init b (List.mem_cons_self b t)]
      exact ih (fun a x hx => h a x (List.mem_cons_of_mem _ hx)) init

/-! ### Theorems about the knapsack optimizer -/

theorem bestSel_nil (b : Nat) : bestSel [] b = (0, []) := rfl

theorem bestSel_cons (it : KItem) (rest : List KItem) (b : Nat) :
    bestSel (it :: rest) b =
      (List.range it.desired).foldl (knapStep it rest b)
        ((bestSel rest b).1, 0 :: (bestSel rest b).2) := rfl

theorem knapStep_fst_mono (it : KItem) (rest : List KItem) (b : Nat)
    (acc : ℚ × List Nat) (k : Nat) : acc.1 ≤ (knapStep it rest b acc k).1 := by
  unfold knapStep
  by_cases h1 : it.price * (k + 1) ≤ b
  · rw [if_pos h1]
    by_cases h2 :
        acc.1 < (bestSel rest (b - it.price * (k + 1))).1 + it.value * (k + 1)
    · rw [if_pos h2]; exact le_of_lt h2
    · rw [if_neg h2]
  · rw [if_neg h1]

theorem bestSel_spec (items : List KItem) :
    ∀ b : Nat,
      selCost items (bestSel items b).2 ≤ b ∧
      List.Forall₂ (fun q it => q ≤ KItem.desired it) (bestSel items b).2 items ∧
      (bestSel items b).1 = totalValue items (bestSel items b).2 := by
  induction items with
  | nil =>
      intro b
      exact ⟨by simp [bestSel_nil, selCost], by simp [bestSel_nil], by
        simp [bestSel_nil, totalValue]⟩
  | cons it rest ih =>
      intro b
      rw [bestSel_cons]
      refine foldl_invariant
        (fun acc : ℚ × List Nat =>
          selCost (it :: rest) acc.2 ≤ b ∧
          List.Forall₂ (fun q it => q ≤ KItem.desired it) acc.2 (it :: rest) ∧
          acc.1 = totalValue (it :: rest) acc.2)
        (knapStep it rest b) (List.range it.desired) _ ⟨?_, ?_, ?_⟩ ?_
      · simpa [selCost] using (ih b).1
      · exact List.Forall₂.cons (Nat.zero_le _) (ih b).2.1
      · simpa [totalValue] using (ih b).2.2
      · intro acc k hk hP
        unfold knapStep
        by_cases h1 : it.price * (k + 1) ≤ b
        · rw [if_pos h1]
          by_cases h2 :
              acc.1 < (bestSel rest (b - it.price * (k + 1))).1 + it.value * (k + 1)
          · rw [if_pos h2]
            have hsub := ih (b - it.price * (k + 1))
            refine ⟨?_, ?_, ?_⟩
            · have hc := hsub.1
              simp only [selCost]
              generalize hm : it.price * (k + 1) = m at h1 hc ⊢
              omega
            · exact List.Forall₂.cons
                (Nat.succ_le_of_lt (List.mem_range.mp hk)) hsub.2.1
            · simp only [totalValue]
              rw [hsub.2.2]
              push_cast
              ring
          · rw [if_neg h2]; exact hP
        · rw [if_neg h1]; exact hP

theorem bestSel_optimal (items : List KItem) :
    ∀ (qs : List Nat) (b : Nat),
      List.Forall₂ (fun q it => q ≤ KItem.desired it) qs items →
      selCost items qs ≤ b →
      totalValue items qs ≤ (bestSel items b).1 := by
  induction items with
  | nil =>
      intro qs b hf _
      cases hf
      simp [bestSel_nil, totalValue]
  | cons it rest ih =>
      intro qs b hf hcost
      cases hf with
      | cons hq htail =>
        rename_i q qs'
        simp only [selCost] at hcost
        have hqb : it.price * q ≤ b := le_trans (Nat.le_add_right _ _) hcost
        have hcost' : selCost rest qs' ≤ b - it.price * q := by
          generalize hm : it.price * q = m at hcost hqb ⊢
          omega
        rw [bestSel_cons]
        simp only [totalValue]
        rcases Nat.eq_zero_or_pos q with rfl | hqpos
        · have h1 : totalValue rest qs' ≤ (bestSel rest b).1 :=
            ih qs' b htail (by simpa using hcost')
          have h2 := fst_le_foldl Prod.fst (knapStep it rest b)
            (knapStep_fst_mono it rest b) (List.range it.desired)
            ((bestSel rest b).1, 0 :: (bestSel rest b).2)
          simp only [Nat.cast_zero, mul_zero, zero_add]
          exact le_trans h1 h2
        · obtain ⟨k, rfl⟩ : ∃ k, q = k + 1 := ⟨q - 1, by omega⟩
          have hsub : totalValue rest qs' ≤ (bestSel rest (b - it.price * (k + 1))).1 :=
            ih qs' (b - it.price * (k + 1)) htail hcost'
          have hstep : ∀ a : ℚ × List Nat,
              (bestSel rest (b - it.price * (k + 1))).1 + it.value * (k + 1) ≤
                (knapStep it rest b a k).1 := by
            intro a
            unfold knapStep
            rw [if_pos hqb]
            by_cases h2 :
                a.1 < (bestSel rest (b - it.price * (k + 1))).1 + it.value * (k + 1)
            · rw [if_pos h2]
            · rw [if_neg h2]; exact le_of_not_lt h2
          have hmem : k ∈ List.range it.desired :=
            List.mem_range.mpr (by omega)
          have hfold := le_foldl_of_mem Prod.fst (knapStep it rest b)
            ((bestSel rest (b - it.price * (k + 1))).1 + it.value * (k + 1))
            (knapStep_fst_mono it rest b) (List.range it.desired) k hmem hstep
            ((bestSel rest b).1, 0 :: (bestSel rest b).2)
          refine le_trans ?_ hfold
          push_cast
          linarith [hsub]

theorem bestSel_infeasible (items : List KItem) :
    ∀ b : Nat, (∀ it ∈ items, b < it.price) →
      bestSel items b = (0, List.replicate items.length 0) := by
  induction items with
  | nil => intro b _; rfl
  | cons it rest ih =>
      intro b h
      rw [bestSel_cons]
      rw [foldl_fixed (knapStep it rest b) (List.range it.desired) ?_]
      · rw [ih b (fun x hx => h x (List.mem_cons_of_mem _ hx))]
        simp [List.replicate_succ]
      · intro a k _
        unfold knapStep
        have hle : it.price ≤ it.price * (k + 1) :=
          le_mul_of_one_le_right (Nat.zero_le _) (Nat.succ_le_succ (Nat.zero_le _))
        have : ¬ it.price * (k + 1) ≤ b :=
          not_le.mpr (lt_of_lt_of_le (h it (List.mem_cons_self it rest)) hle)
        rw [if_neg this]

theorem selCost_replicate_zero (items : List KItem) :
    selCost items (List.replicate items.length 0) = 0 := by
  induction items with
  | nil => rfl
  | cons it rest ih => simpa [List.replicate_succ, selCost] using ih

theorem forall₂_desired_through_map (w1 w2 w3 : ℚ) :
    ∀ (sel : List Nat) (prods : List KProduct),
      List.Forall₂ (fun q it => q ≤ KItem.desired it) sel (prods.map (toItem w1 w2 w3)) →
      List.Forall₂ (fun q p => q ≤ KProduct.desired p) sel prods := by
  intro sel prods
  induction prods generalizing sel with
  | nil =>
      intro h
      cases h
      exact List.Forall₂.nil
  | cons p rest ih =>
      intro h
      rw [List.map_cons] at h
      cases h with
      | cons hq htail => exact List.Forall₂.cons hq (ih _ htail)

/-- C1: for every input accepted by the knapsack optimizer (budget, prices
and desired quantities are non-negative integer quantities by construction;
the wrapper validates the weights and the budget), the returned selection
spends at most the budget, and every chosen quantity lies between `0` and the
caller-specified desired quantity of its product (quantities are naturals, so
non-negativity is inherent). -/
theorem knapsack_selection_valid (w1 w2 w3 : ℚ) (budget : Int)
    (prods : List KProduct) (v : ℚ) (sel : List Nat)
    (h : optimize w1 w2 w3 budget prods = .ok (v, sel)) :
    (selCost (prods.map (toItem w1 w2 w3)) sel : Int) ≤ budget ∧
    List.Forall₂ (fun q p => q ≤ KProduct.desired p) sel prods := by
  unfold optimize at h
  by_cases hbad : w1 < 0 ∨ w2 < 0 ∨ w3 < 0 ∨ budget < 0
  · rw [if_pos hbad] at h
    exact absurd h (by simp)
  · rw [if_neg hbad] at h
    push_neg at hbad
    have hb : 0 ≤ budget := hbad.2.2.2
    injection h with h'
    have hsel : sel = (bestSel (prods.map (toItem w1 w2 w3)) budget.toNat).2 :=
      (congrArg Prod.snd h').symm
    have hspec := bestSel_spec (prods.map (toItem w1 w2 w3)) budget.toNat
    constructor
    · have h1 : selCost (prods.map (toItem w1 w2 w3)) sel ≤ budget.toNat := by
        rw [hsel]; exact hspec.1
      omega
    · have h2 := hspec.2.1
      rw [← hsel] at h2
      exact forall₂_desired_through_map w1 w2 w3 sel prods h2

/-- Concrete instantiation of `knapsack_selection_valid`. -/
theorem knapsack_selection_valid_witness :
    (selCost (([⟨3, 1, 0, 0, 1⟩] : List KProduct).map (toItem 1 1 1)) [0] : Int) ≤ 2 ∧
    List.Forall₂ (fun q p => q ≤ KProduct.desired p) [0]
      ([⟨3, 1, 0, 0, 1⟩] : List KProduct) :=
  knapsack_selection_valid 1 1 1 2 [⟨3, 1, 0, 0, 1⟩] 0 [0] (by decide)

/-- C4: with the product list, desired quantities and objective weights
fixed, the total objective value achieved by the knapsack optimizer is
monotone in the budget: a larger budget never yields a selection of smaller
total value. -/
theorem knapsack_value_monotone (items : List KItem) (b1 b2 : Nat) (h : b1 ≤ b2) :
    totalValue items (bestSel items b1).2 ≤ totalValue items (bestSel items b2).2 := by
  have s1 := bestSel_spec items b1
  have s2 := bestSel_spec items b2
  calc totalValue items (bestSel items b1).2
      ≤ (bestSel items b2).1 :=
        bestSel_optimal items (bestSel items b1).2 b2 s1.2.1 (le_trans s1.1 h)
    _ = totalValue items (bestSel items b2).2 := s2.2.2

/-- Concrete instantiation of `knapsack_value_monotone`. -/
theorem knapsack_value_monotone_witness :
    (1 : Nat) ≤ 5 ∧
    totalValue [⟨2, 1, 3⟩] (bestSel [⟨2, 1, 3⟩] 1).2 ≤
      totalValue [⟨2, 1, 3⟩] (bestSel [⟨2, 1, 3⟩] 5).2 :=
  ⟨by decide, knapsack_value_monotone [⟨2, 1, 3⟩] 1 5 (by decide)⟩

/-- C7: the knapsack optimizer distinguishes empty results from invalid
input: with valid weights and a non-negative budget below every product's
unit price it returns the all-zero selection with zero total cost (not an
error), while a negative weight or a negative budget makes it signal
`InvalidInput`. -/
theorem knapsack_failure_modes (w1 w2 w3 : ℚ) (budget : Int)
    (prods : List KProduct) :
    (0 ≤ w1 → 0 ≤ w2 → 0 ≤ w3 → 0 ≤ budget →
      (∀ p ∈ prods, budget < (p.price : Int)) →
      optimize w1 w2 w3 budget prods = .ok (0, List.replicate prods.length 0) ∧
      selCost (prods.map (toItem w1 w2 w3)) (List.replicate prods.length 0) = 0) ∧
    (w1 < 0 ∨ w2 < 0 ∨ w3 < 0 ∨ budget < 0 →
      optimize w1 w2 w3 budget prods = .error .invalidInput) := by
  constructor
  · intro hw1 hw2 hw3 hb hcheap
    have hbad : ¬ (w1 < 0 ∨ w2 < 0 ∨ w3 < 0 ∨ budget < 0) := by
      push_neg
      exact ⟨hw1, hw2, hw3, hb⟩
    have hinf : ∀ it ∈ prods.map (toItem w1 w2 w3), budget.toNat < it.price := by
      intro x hx
      obtain ⟨p, hp, rfl⟩ := List.mem_map.mp hx
      have := hcheap p hp
      simp only [toItem]
      omega
    constructor
    · unfold optimize
      rw [if_neg hbad, bestSel_infeasible (prods.map (toItem w1 w2 w3)) budget.toNat hinf]
      rw [List.length_map]
    · have := selCost_replicate_zero (prods.map (toItem w1 w2 w3))
      rwa [List.length_map] at this
  · intro hbad
    unfold optimize
    rw [if_pos hbad]

/-- Concrete instantiation of both parts of `knapsack_failure_modes`. -/
theorem knapsack_failure_modes_witness :
    (optimize 1 1 1 5 [⟨10, 1, 0, 0, 1⟩] = .ok (0, List.replicate 1 0) ∧
      selCost (([⟨10, 1, 0, 0, 1⟩] : List KProduct).map (toItem 1 1 1))
        (List.replicate 1 0) = 0) ∧
    optimize 1 1 1 (-1) [] = .error .invalidInput :=
  ⟨(knapsack_failure_modes 1 1 1 5 [⟨10, 1, 0, 0, 1⟩]).1 (by norm_num) (by norm_num)
      (by norm_num) (by norm_num)
      (by intro p hp; simp at hp; subst hp; norm_num),
    (knapsack_failure_modes 1 1 1 (-1) []).2 (by norm_num)⟩

/-- C6 counterexample: with a single essential product of unit price 10 and
desired quantity 1 and a budget of 1, the essential cost 10 exceeds the
budget, and uniform scaling with flooring reduces the essential's quantity to
0 — the essential product IS dropped outright, contradicting the claim that
every essential with a positive desired quantity retains a positive
quantity. -/
theorem essentials_dropped_counterexample :
    essentialCost [(10, 1)] = 10 ∧
    1 < essentialCost [(10, 1)] ∧
    scaleEssentials 1 [(10, 1)] = [0] := by
  refine ⟨by decide, by decide, ?_⟩
  decide

/-- C6 (amended): whenever the essential cost exceeds the budget, every
essential quantity is scaled down by the single uniform factor
`budget / essential_cost`, floored to integer units; an essential product
with positive desired quantity retains a positive quantity exactly when its
desired quantity times the budget is at least the essential cost — smaller
quantities floor to zero, so essentials can be dropped by the flooring. -/
theorem scaleEssentials_uniform_floor (budget : Nat) (ess : List (Nat × Nat))
    (h : budget < essentialCost ess) :
    scaleEssentials budget ess =
      ess.map (fun e => e.2 * budget / essentialCost ess) ∧
    ∀ e ∈ ess, (0 < e.2 * budget / essentialCost ess ↔
      essentialCost ess ≤ e.2 * budget) := by
  constructor
  · unfold scaleEssentials
    rw [if_pos h]
  · intro e _
    have hc : essentialCost ess ≠ 0 := by omega
    exact Nat.div_pos_iff hc

/-- Concrete instantiation of `scaleEssentials_uniform_floor`. -/
theorem scaleEssentials_uniform_floor_witness :
    4 < essentialCost [(2, 3)] ∧
    (scaleEssentials 4 [(2, 3)] =
        ([(2, 3)] : List (Nat × Nat)).map (fun e => e.2 * 4 / essentialCost [(2, 3)]) ∧
      ∀ e ∈ ([(2, 3)] : List (Nat × Nat)),
        (0 < e.2 * 4 / essentialCost [(2, 3)] ↔ essentialCost [(2, 3)] ≤ e.2 * 4)) :=
  ⟨by decide, scaleEssentials_uniform_floor 4 [(2, 3)] (by decide)⟩

/-! ### Theorems about the sustainability scorer -/

theorem clampScore_bounds (x : ℚ) : 0 ≤ clampScore x ∧ clampScore x ≤ 100 :=
  ⟨le_max_left 0 _, max_le (by norm_num) (min_le_left _ _)⟩

/-- C2: for every product and category average accepted by the scorer, the
returned overall score equals `economic×0.33 + environmental×0.34 +
social×0.33` where the three axis scores are the clamped axes of the result,
each in `[0,100]`; consequently the overall score itself lies in
`[0,100]`. -/
theorem scorer_overall_weighted (p : Product) (catAvg : ℚ) (qty : Nat)
    (h : ¬(p.price < 0 ∨ p.weightKg < 0 ∨ catAvg < 0)) :
    scoreProduct p catAvg qty = .ok (mkScore p catAvg qty) ∧
    (mkScore p catAvg qty).overall =
      (mkScore p catAvg qty).economic * 0.33 +
      (mkScore p catAvg qty).environmental * 0.34 +
      (mkScore p catAvg qty).social * 0.33 ∧
    (0 ≤ (mkScore p catAvg qty).economic ∧ (mkScore p catAvg qty).economic ≤ 100) ∧
    (0 ≤ (mkScore p catAvg qty).environmental ∧
      (mkScore p catAvg qty).environmental ≤ 100) ∧
    (0 ≤ (mkScore p catAvg qty).social ∧ (mkScore p catAvg qty).social ≤ 100) ∧
    (0 ≤ (mkScore p catAvg qty).overall ∧ (mkScore p catAvg qty).overall ≤ 100) := by
  have he : 0 ≤ economicScore p catAvg qty ∧ economicScore p catAvg qty ≤ 100 :=
    clampScore_bounds _
  have hv : 0 ≤ environmentalScore p ∧ environmentalScore p ≤ 100 :=
    clampScore_bounds _
  have hs : 0 ≤ socialScore p ∧ socialScore p ≤ 100 :=
    clampScore_bounds _
  refine ⟨?_, ?_, ?_, ?_, ?_, ?_⟩
  · unfold scoreProduct
    rw [if_neg h]
  · simp only [mkScore]
  · simpa only [mkScore] using he
  · simpa only [mkScore] using hv
  · simpa only [mkScore] using hs
  · simp only [mkScore]
    constructor
    · have h1 : (0 : ℚ) ≤ economicScore p catAvg qty * 0.33 := by nlinarith [he.1]
      have h2 : (0 : ℚ) ≤ environmentalScore p * 0.34 := by nlinarith [hv.1]
      have h3 : (0 : ℚ) ≤ socialScore p * 0.33 := by nlinarith [hs.1]
      linarith
    · have h1 : economicScore p catAvg qty * 0.33 ≤ 33 := by nlinarith [he.2]
      have h2 : environmentalScore p * 0.34 ≤ 34 := by nlinarith [hv.2]
      have h3 : socialScore p * 0.33 ≤ 33 := by nlinarith [hs.2]
      linarith

/-- Concrete instantiation of `scorer_overall_weighted`. -/
theorem scorer_overall_weighted_witness :
    scoreProduct ⟨"vegetables", 1000, 1, .localOrigin, [],
        ⟨none, none, none, none, none, none⟩⟩ 1000 0 =
      .ok (mkScore ⟨"vegetables", 1000, 1, .localOrigin, [],
        ⟨none, none, none, none, none, none⟩⟩ 1000 0) ∧
    (mkScore ⟨"vegetables", 1000, 1, .localOrigin, [],
        ⟨none, none, none, none, none, none⟩⟩ 1000 0).overall =
      (mkScore ⟨"vegetables", 1000, 1, .localOrigin, [],
        ⟨none, none, none, none, none, none⟩⟩ 1000 0).economic * 0.33 +
      (mkScore ⟨"vegetables", 1000, 1, .localOrigin, [],
        ⟨none, none, none, none, none, none⟩⟩ 1000 0).environmental * 0.34 +
      (mkScore ⟨"vegetables", 1000, 1, .localOrigin, [],
        ⟨none, none, none, none, none, none⟩⟩ 1000 0).social * 0.33 ∧
    (0 ≤ (mkScore ⟨"vegetables", 1000, 1, .localOrigin, [],
        ⟨none, none, none, none, none, none⟩⟩ 1000 0).economic ∧
      (mkScore ⟨"vegetables", 1000, 1, .localOrigin, [],
        ⟨none, none, none, none, none, none⟩⟩ 1000 0).economic ≤ 100) ∧
    (0 ≤ (mkScore ⟨"vegetables", 1000, 1, .localOrigin, [],
        ⟨none, none, none, none, none, none⟩⟩ 1000 0).environmental ∧
      (mkScore ⟨"vegetables", 1000, 1, .localOrigin, [],
        ⟨none, none, none, none, none, none⟩⟩ 1000 0).environmental ≤ 100) ∧
    (0 ≤ (mkScore ⟨"vegetables", 1000, 1, .localOrigin, [],
        ⟨none, none, none, none, none, none⟩⟩ 1000 0).social ∧
      (mkScore ⟨"vegetables", 1000, 1, .localOrigin, [],
        ⟨none, none, none, none, none, none⟩⟩ 1000 0).social ≤ 100) ∧
    (0 ≤ (mkScore ⟨"vegetables", 1000, 1, .localOrigin, [],
        ⟨none, none, none, none, none, none⟩⟩ 1000 0).overall ∧
      (mkScore ⟨"vegetables", 1000, 1, .localOrigin, [],
        ⟨none, none, none, none, none, none⟩⟩ 1000 0).overall ≤ 100) :=
  scorer_overall_weighted ⟨"vegetables", 1000, 1, .localOrigin, [],
    ⟨none, none, none, none, none, none⟩⟩ 1000 0 (by decide)

/-- C8: the scorer never divides by a zero category average: for
non-negative price and weight, a zero category average leaves the call
successful with the price-ratio adjustment replaced by the neutral value 0,
while a negative price, weight or category average makes the scorer signal
`InvalidInput`. -/
theorem scorer_zero_avg_guard (p : Product) (catAvg : ℚ) (qty : Nat) :
    (0 ≤ p.price → 0 ≤ p.weightKg → catAvg = 0 →
      scoreProduct p catAvg qty = .ok (mkScore p 0 qty) ∧
      priceRatioAdj p.price catAvg = 0) ∧
    (p.price < 0 ∨ p.weightKg < 0 ∨ catAvg < 0 →
      scoreProduct p catAvg qty = .error .invalidInput) := by
  constructor
  · intro hp hw hc
    subst hc
    have hnot : ¬(p.price < 0 ∨ p.weightKg < 0 ∨ (0 : ℚ) < 0) := by
      push_neg
      exact ⟨hp, hw, le_refl 0⟩
    constructor
    · unfold scoreProduct
      rw [if_neg hnot]
    · unfold priceRatioAdj
      rw [if_pos rfl]
  · intro hbad
    unfold scoreProduct
    rw [if_pos hbad]

/-- Concrete instantiation of both parts of `scorer_zero_avg_guard`. -/
theorem scorer_zero_avg_guard_witness :
    (scoreProduct ⟨"meat", 1000, 1, .national, [],
        ⟨none, none, none, none, none, none⟩⟩ 0 0 =
      .ok (mkScore ⟨"meat", 1000, 1, .national, [],
        ⟨none, none, none, none, none, none⟩⟩ 0 0) ∧
      priceRatioAdj (1000 : ℚ) 0 = 0) ∧
    scoreProduct ⟨"meat", -1, 1, .national, [],
        ⟨none, none, none, none, none, none⟩⟩ 5 0 = .error .invalidInput :=
  ⟨(scorer_zero_avg_guard ⟨"meat", 1000, 1, .national, [],
      ⟨none, none, none, none, none, none⟩⟩ 0 0).1 (by decide) (by decide) rfl,
    (scorer_zero_avg_guard ⟨"meat", -1, 1, .national, [],
      ⟨none, none, none, none, none, none⟩⟩ 5 0).2 (Or.inl (by decide))⟩

/-! ### Theorems about the substitute finder -/

/-- C3: every result returned by `findSubstitutes` satisfies both filters —
candidate price within `original × (1 + maxPriceIncreasePct)` and overall
improvement at least `minSustainabilityImprovement` — carries the documented
substitution score, and the returned list is sorted in descending order of
total score with ties broken by lower candidate price. -/
theorem findSubstitutes_filtered_sorted (orig : SProduct) (pool : List SProduct)
    (maxInc minImp : ℚ) :
    (∀ r ∈ findSubstitutes orig pool maxInc minImp,
      r.cand.price ≤ orig.price * (1 + maxInc) ∧
      minImp ≤ r.cand.overall - orig.overall ∧
      r.score = substitutionScore orig r.cand) ∧
    List.Pairwise subBefore (findSubstitutes orig pool maxInc minImp) := by
  constructor
  · intro r hr
    unfold findSubstitutes at hr
    rw [List.mem_insertionSort] at hr
    obtain ⟨c, hc, rfl⟩ := List.mem_map.mp hr
    have hmem := List.mem_filter.mp hc
    have hprops := hmem.2
    simp only [Bool.and_eq_true, decide_eq_true_eq] at hprops
    exact ⟨hprops.1, hprops.2, rfl⟩
  · unfold findSubstitutes
    simpa [List.Sorted] using
      List.sorted_insertionSort subBefore
        ((pool.filter (fun c =>
            decide (c.price ≤ orig.price * (1 + maxInc)) &&
            decide (minImp ≤ c.overall - orig.overall))).map
          (fun c => ⟨c, substitutionScore orig c⟩))

/-! ### Theorems about the route optimizer -/

theorem chooseNearest_mem (f : Nat → ℚ) (x : Nat) (xs : List Nat) :
    chooseNearest f x xs ∈ x :: xs := by
  unfold chooseNearest
  refine foldl_invariant (fun b => b ∈ x :: xs) _ xs x (List.mem_cons_self x xs) ?_
  intro a y hy ha
  by_cases hcond : f y < f a ∨ (f y = f a ∧ y < a)
  · rw [if_pos hcond]
    exact List.mem_cons_of_mem _ hy
  · rw [if_neg hcond]
    exact ha

theorem nnAux_perm (d : Nat → Nat → ℚ) :
    ∀ (fuel : Nat) (f : Nat → ℚ) (l : List Nat), l.length ≤ fuel →
      List.Perm (nnAux d fuel f l) l := by
  intro fuel
  induction fuel with
  | zero =>
      intro f l hl
      have hnil : l = [] := List.length_eq_zero.mp (Nat.le_zero.mp hl)
      subst hnil
      simp [nnAux]
  | succ fuel ih =>
      intro f l hl
      match l with
      | [] => simp [nnAux]
      | x :: xs =>
          have hm : chooseNearest f x xs ∈ x :: xs := chooseNearest_mem f x xs
          simp only [nnAux]
          have hlen : ((x :: xs).erase (chooseNearest f x xs)).length ≤ fuel := by
            rw [List.length_erase_of_mem hm]
            simpa using Nat.le_of_succ_le_succ hl
          refine List.Perm.trans (List.Perm.cons _ (ih (d _) _ hlen)) ?_
          exact (List.perm_cons_erase hm).symm

theorem reverseSegment_perm (route : List Nat) (i j : Nat) (h : i ≤ j + 1) :
    List.Perm (reverseSegment route i j) route := by
  have hmid := List.reverse_perm ((route.drop i).take (j + 1 - i))
  have htail : route.drop (j + 1) = (route.drop i).drop (j + 1 - i) := by
    rw [List.drop_drop]
    congr 1
    omega
  have e1 : reverseSegment route i j =
      route.take i ++ (((route.drop i).take (j + 1 - i)).reverse ++
        (route.drop i).drop (j + 1 - i)) := by
    unfold reverseSegment
    rw [List.append_assoc, htail]
  have p1 : List.Perm
      (((route.drop i).take (j + 1 - i)).reverse ++ (route.drop i).drop (j + 1 - i))
      ((route.drop i).take (j + 1 - i) ++ (route.drop i).drop (j + 1 - i)) :=
    List.Perm.append_right _ hmid
  have p2 : List.Perm (reverseSegment route i j)
      (route.take i ++ ((route.drop i).take (j + 1 - i) ++
        (route.drop i).drop (j + 1 - i))) := by
    rw [e1]
    exact List.Perm.append_left _ p1
  have e2 : (route.drop i).take (j + 1 - i) ++ (route.drop i).drop (j + 1 - i) =
      route.drop i := List.take_append_drop _ _
  rw [e2, List.take_append_drop] at p2
  exact p2

theorem segPairs_lt {n : Nat} {pr : Nat × Nat} (h : pr ∈ segPairs n) : pr.1 < pr.2 := by
  unfold segPairs at h
  have hp := (List.mem_filter.mp h).2
  simp only [Bool.and_eq_true, decide_eq_true_eq] at hp
  exact hp.2

theorem twoOptPass_perm (dStart : Nat → ℚ) (d : Nat → Nat → ℚ) (route : List Nat) :
    List.Perm (twoOptPass dStart d route) route := by
  unfold twoOptPass
  refine foldl_invariant (fun best => List.Perm best route) _ (segPairs route.length)
    route (List.Perm.refl route) ?_
  intro best pr hpr hbest
  by_cases hc : routeDist dStart d (reverseSegment route pr.1 pr.2) <
      routeDist dStart d best
  · rw [if_pos hc]
    exact reverseSegment_perm route pr.1 pr.2 (by have := segPairs_lt hpr; omega)
  · rw [if_neg hc]
    exact hbest

theorem twoOpt_perm (dStart : Nat → ℚ) (d : Nat → Nat → ℚ) :
    ∀ (fuel : Nat) (route : List Nat), List.Perm (twoOpt dStart d fuel route) route := by
  intro fuel
  induction fuel with
  | zero => intro route; simp [twoOpt]
  | succ fuel ih =>
      intro route
      simp only [twoOpt]
      by_cases hc : routeDist dStart d (twoOptPass dStart d route) <
          routeDist dStart d route
      · rw [if_pos hc]
        exact (ih (twoOptPass dStart d route)).trans (twoOptPass_perm dStart d route)
      · rw [if_neg hc]

/-- C5: the route returned by `optimizeRoute` visits exactly the input
stores: after the nearest-neighbor construction and the 2-opt refinement the
ordered sequence is a permutation of the input store list — no store
duplicated, no store omitted (stated for every input list, in particular
every non-empty one, and every distance function). -/
theorem optimizeRoute_perm (dStart : Nat → ℚ) (d : Nat → Nat → ℚ) (stores : List Nat) :
    List.Perm (optimizeRoute dStart d stores) stores := by
  unfold optimizeRoute nearestNeighbor
  exact (twoOpt_perm dStart d 100 _).trans
    (nnAux_perm d stores.length dStart stores (le_refl _))

end LiquiVerde
